import Mathlib

/-!
Verification development for the go-pizza-tracker repository.

The definitions below are a shallow embedding of the order data model and
its create/read paths:

* `internal/models/order.go` — status vocabulary, pizza reference data,
  the `Order` / `OrderItem` / junction-row structs, the `BeforeCreate`
  identifier hooks, and the repository operations `CreateOrder` /
  `GetOrder`.
* `cmd/customer.go` — `HandleNewOrder`: parsing of the submitted
  `pizzaIndex:topping` entries, default-topping substitution, the
  extra/non-extra classification, and assembly of the order graph.

Machine integers are modelled as `Int`/`Nat`; Go's `time.Time` as a `Nat`
tick supplied by the caller; the SQLite store as append-only lists of rows,
one list per table; `shortid.MustGenerate` as an identifier supply
`gen : Nat → String` consumed left to right; storage faults as an oracle
`faults : Nat → Bool` indexed by insertion step.  GORM's `DB.Create` runs
the whole association graph inside one transaction, so `createOrder` wraps
the row-by-row `insertGraph` and restores the original state on any fault.
-/

namespace PizzaTracker

/-! ## Reference vocabulary (`internal/models/order.go`) -/

def OrderStatusPlaced : String := "Order Placed"

def OrderStatusPreparing : String := "Preparing"

def OrderStatusCooking : String := "Cooking"

def OrderStatusQualityCheck : String := "Quality Check"

def OrderStatusReady : String := "Ready"

def OrderStatuses : List String :=
  [OrderStatusPlaced, OrderStatusPreparing, OrderStatusCooking,
   OrderStatusQualityCheck, OrderStatusReady]

def PizzaTypes : List String :=
  ["Margherita", "Pepperoni", "Vegetarian", "Hawaiian", "BBQ Chicken",
   "Meat Lovers", "Buffalo Chicken", "Supreme", "Truffle Mushroom",
   "Four Cheese", "Vegan Pizza", "Vegan Meat Lovers", "Vegan Garden",
   "Make Your Own", "Garlic"]

/-- The Go `map[string][]string` of per-type default toppings, as an
association list (only keyed lookup is ever performed on it). -/
def PizzaDefaultToppings : List (String × List String) :=
  [("Margherita", ["Tomato Sauce", "Mozzarella", "Tomatoes", "Basil"]),
   ("Pepperoni", ["Tomato Sauce", "Mozzarella", "Pepperoni"]),
   ("Vegetarian", ["Tomato Sauce", "Mozzarella", "Mushroom", "Capsicum", "Red Onion", "Olives", "Zucchini"]),
   ("Hawaiian", ["Tomato Sauce", "Mozzarella", "Ham", "Pineapple"]),
   ("BBQ Chicken", ["BBQ Sauce", "Mozzarella", "Chicken", "Red Onion", "Capsicum", "Bacon"]),
   ("Meat Lovers", ["Tomato Sauce", "Mozzarella", "Pepperoni", "Sausage", "Bacon", "Ham", "Mince"]),
   ("Buffalo Chicken", ["Buffalo Sauce", "Mozzarella", "Chicken", "Red Onion", "Jalapenos"]),
   ("Supreme", ["Tomato Sauce", "Mozzarella", "Pepperoni", "Sausage", "Mushroom", "Capsicum", "Red Onion", "Olives"]),
   ("Truffle Mushroom", ["Truffle Oil", "Mozzarella", "Mushroom", "Garlic Oil", "Rocket"]),
   ("Four Cheese", ["Tomato Sauce", "Mozzarella", "Parmesan", "Gorgonzola", "Ricotta"]),
   ("Vegan Pizza", ["Tomato Sauce", "Vegan Cheese", "White Onion", "Basil", "Capsicum", "Garlic Slices", "Corn", "Zucchini"]),
   ("Vegan Meat Lovers", ["BBQ Sauce", "Vegan Cheese", "White Onion", "Vegan Ham", "Vegan Mince", "Vegan Chicken", "Vegan Bacon", "Vegan Pepperoni"]),
   ("Vegan Garden", ["Pesto", "Vegan Cheese", "Red Onion", "Mushroom", "Pumpkin", "Capsicum", "Zucchini", "Spinach", "Corn", "Basil", "Rocket"]),
   ("Garlic", ["Garlic", "Mozzarella", "Garlic Oil"]),
   ("Make Your Own", [])]

/-- Go map indexing `models.PizzaDefaultToppings[p]`: the zero value
(`nil` slice, here `[]`) when the key is absent. -/
def defaultToppingsFor (p : String) : List String :=
  (PizzaDefaultToppings.lookup p).getD []

/-! ## Data model structs (`internal/models/order.go`) -/

/-- Junction row attaching one topping (with the `IsExtra` flag) to an
order item. -/
structure OrderItemTopping where
  ID : String
  OrderItemID : String
  Topping : String
  IsExtra : Bool
deriving DecidableEq

/-- Junction row attaching one dietary-requirement label to an order item. -/
structure OrderItemDietaryRequirement where
  ID : String
  OrderItemID : String
  DietaryRequirement : String
deriving DecidableEq

/-- Junction row attaching one allergy label to an order item. -/
structure OrderItemAllergy where
  ID : String
  OrderItemID : String
  Allergy : String
deriving DecidableEq

/-- `models.OrderItem`.  Faithful to the struct in
`internal/models/order.go` (ID, OrderID, Size, Pizza, Instructions and the
three junction collections).  Note: the struct declares NO crust field,
even though `cmd/customer.go` tries to assign one — see the C7 analysis. -/
structure OrderItem where
  ID : String
  OrderID : String
  Size : String
  Pizza : String
  Instructions : String
  DietaryRequirement : List OrderItemDietaryRequirement
  Toppings : List OrderItemTopping
  Allergies : List OrderItemAllergy
deriving DecidableEq

/-- `models.Order`.  `CreatedAt` is a `Nat` tick standing in for
`time.Time`. -/
structure Order where
  ID : String
  Status : String
  CustomerName : String
  Phone : String
  Address : String
  Items : List OrderItem
  CreatedAt : Nat
deriving DecidableEq

/-! ## Topping-entry parsing (`cmd/customer.go`, HandleNewOrder)

The form posts toppings as strings `"pizzaIndex:topping"`.  The handler
splits each entry at the FIRST colon (`strings.SplitN(t, ":", 2)`), parses
the prefix with `strconv.Atoi`, and silently skips the entry when either
step fails. -/

/-- `strings.SplitN(s, ":", 2)` on the character list: `none` when the
string has no colon (Go returns a 1-element slice and the handler skips the
entry), otherwise the text before and after the first colon. -/
def splitFirstColon : List Char → Option (List Char × List Char)
  | [] => none
  | c :: rest =>
    if c = ':' then some ([], rest)
    else (splitFirstColon rest).map (fun p => (c :: p.1, p.2))

/-- Decimal digit run to its value; `none` on an empty or non-digit run. -/
def digitsToNat (cs : List Char) : Option Nat :=
  if cs = [] then none
  else if cs.all Char.isDigit then
    some (cs.foldl (fun n c => 10 * n + (c.toNat - '0'.toNat)) 0)
  else none

/-- `strconv.Atoi`: optional sign, a non-empty digit run, nothing else,
result within the 64-bit int range. -/
def atoiChars : List Char → Option Int
  | '-' :: rest =>
    (digitsToNat rest).bind fun n =>
      if n ≤ 9223372036854775808 then some (-(n : Int)) else none
  | '+' :: rest =>
    (digitsToNat rest).bind fun n =>
      if n ≤ 9223372036854775807 then some ((n : Int)) else none
  | cs =>
    (digitsToNat cs).bind fun n =>
      if n ≤ 9223372036854775807 then some ((n : Int)) else none

/-- One topping entry: `some (index, label)` exactly when the entry has a
colon and an `Atoi`-parsable prefix; `none` is the silently skipped case. -/
def parseToppingEntry (s : String) : Option (Int × String) :=
  match splitFirstColon s.data with
  | none => none
  | some (pre, post) => (atoiChars pre).map (fun i => (i, String.mk post))

/-- The `toppingsMap` built by the loop in `HandleNewOrder`: a map from
pizza index to the labels appended for it, in entry order.  Modelled as a
total function on `Int` (Go map indexing yields `nil` for absent keys). -/
def toppingsMap (entries : List String) : Int → List String :=
  entries.foldl
    (fun m t =>
      match parseToppingEntry t with
      | none => m
      | some (i, lbl) => fun j => if j = i then m j ++ [lbl] else m j)
    (fun _ => [])

/-! ## Order assembly (`cmd/customer.go`, HandleNewOrder) -/

/-- The bound form fields of `OrderRequest`.  `Crusts` is carried along
even though the persisted `OrderItem` struct has no field to receive it. -/
structure OrderRequest where
  Name : String
  Phone : String
  Address : String
  Sizes : List String
  PizzaTypes : List String
  Crusts : List String
  Instructions : List String
  Toppings : List String
  DietaryRequirements : List String
  Allergies : List String
deriving DecidableEq

/-- The loop body of `HandleNewOrder` for pizza index `i`: selection (or
default substitution when the parsed selection is empty), extra
classification against the type's default set, and replication of the
order-level dietary/allergy lists onto the item.  The computed crust value
(`"Regular"` fallback) has no corresponding field on `models.OrderItem`
and so appears nowhere in the result. -/
def buildItem (form : OrderRequest) (i : Nat) : OrderItem :=
  let pizza := form.PizzaTypes.getD i ""
  let selected := toppingsMap form.Toppings (Int.ofNat i)
  let pizzaToppings := if selected.length = 0 then defaultToppingsFor pizza else selected
  let defaults := defaultToppingsFor pizza
  { ID := ""
    OrderID := ""
    Size := form.Sizes.getD i ""
    Pizza := pizza
    Instructions := form.Instructions.getD i ""
    Toppings := pizzaToppings.map (fun topping =>
      { ID := "", OrderItemID := "", Topping := topping,
        IsExtra := !(defaults.any (fun def_ => def_ == topping)) })
    DietaryRequirement := form.DietaryRequirements.map (fun dietary =>
      { ID := "", OrderItemID := "", DietaryRequirement := dietary })
    Allergies := form.Allergies.map (fun allergy =>
      { ID := "", OrderItemID := "", Allergy := allergy }) }

/-- `orderItems := make([]models.OrderItem, len(form.Sizes))` filled by the
loop. -/
def buildOrderItems (form : OrderRequest) : List OrderItem :=
  (List.range form.Sizes.length).map (buildItem form)

/-- The `models.Order` literal handed to `CreateOrder` by
`HandleNewOrder`: identifiers unset, status `Order Placed`, timestamp
still zero (the store assigns it). -/
def buildOrder (form : OrderRequest) : Order :=
  { ID := ""
    Status := OrderStatusPlaced
    CustomerName := form.Name
    Phone := form.Phone
    Address := form.Address
    Items := buildOrderItems form
    CreatedAt := 0 }

/-! ## Storage layer (`internal/models/order.go`, CreateOrder / GetOrder)

The SQLite tables created by `AutoMigrate`, as append-only row lists.  The
header tables store the flat columns only; junction structs already are
flat rows. -/

/-- Row of the `orders` table. -/
structure OrderRecord where
  ID : String
  Status : String
  CustomerName : String
  Phone : String
  Address : String
  CreatedAt : Nat
deriving DecidableEq

/-- Row of the `order_items` table. -/
structure OrderItemRecord where
  ID : String
  OrderID : String
  Size : String
  Pizza : String
  Instructions : String
deriving DecidableEq

/-- The durable store: one list of rows per table, in insertion order. -/
structure DB where
  orders : List OrderRecord
  orderItems : List OrderItemRecord
  toppings : List OrderItemTopping
  dietaries : List OrderItemDietaryRequirement
  allergies : List OrderItemAllergy
deriving DecidableEq

def emptyDB : DB := ⟨[], [], [], [], []⟩

/-- Repository errors: `gorm.ErrRecordNotFound` versus any other storage
failure (connectivity, constraint violation, ...). -/
inductive DBError
  | notFound
  | storageFault
deriving DecidableEq

/-- In-flight transaction state: the working store, the next index of the
`shortid` supply, and the next insertion-step index (consulted by the
fault oracle). -/
structure TxSt where
  db : DB
  genIdx : Nat
  stepIdx : Nat
deriving DecidableEq

/-- The `BeforeCreate` hooks: `if x.ID == "" { x.ID = shortid.MustGenerate() }`.
A fresh identifier is drawn from the supply only when the supplied field is
empty; a non-empty caller-supplied identifier is kept verbatim. -/
def hookId (gen : Nat → String) (id : String) (tx : TxSt) : String × TxSt :=
  if id = "" then (gen tx.genIdx, { tx with genIdx := tx.genIdx + 1 }) else (id, tx)

/-- Insert one topping row: hook the identifier, set the foreign key to the
owning item, then append — unless the fault oracle fails this step. -/
def insertTopping (gen : Nat → String) (faults : Nat → Bool) (itemId : String)
    (t : OrderItemTopping) (tx : TxSt) : Except DBError (OrderItemTopping × TxSt) :=
  let p := hookId gen t.ID tx
  let t' : OrderItemTopping :=
    { ID := p.1, OrderItemID := itemId, Topping := t.Topping, IsExtra := t.IsExtra }
  if faults p.2.stepIdx then .error .storageFault
  else .ok (t', { p.2 with
    db := { p.2.db with toppings := p.2.db.toppings ++ [t'] },
    stepIdx := p.2.stepIdx + 1 })

def insertToppings (gen : Nat → String) (faults : Nat → Bool) (itemId : String) :
    List OrderItemTopping → TxSt → Except DBError (List OrderItemTopping × TxSt)
  | [], tx => .ok ([], tx)
  | t :: ts, tx =>
    match insertTopping gen faults itemId t tx with
    | .error e => .error e
    | .ok (t', tx1) =>
      match insertToppings gen faults itemId ts tx1 with
      | .error e => .error e
      | .ok (ts', tx2) => .ok (t' :: ts', tx2)

/-- Insert one dietary-requirement row. -/
def insertDietary (gen : Nat → String) (faults : Nat → Bool) (itemId : String)
    (d : OrderItemDietaryRequirement) (tx : TxSt) :
    Except DBError (OrderItemDietaryRequirement × TxSt) :=
  let p := hookId gen d.ID tx
  let d' : OrderItemDietaryRequirement :=
    { ID := p.1, OrderItemID := itemId, DietaryRequirement := d.DietaryRequirement }
  if faults p.2.stepIdx then .error .storageFault
  else .ok (d', { p.2 with
    db := { p.2.db with dietaries := p.2.db.dietaries ++ [d'] },
    stepIdx := p.2.stepIdx + 1 })

def insertDietaries (gen : Nat → String) (faults : Nat → Bool) (itemId : String) :
    List OrderItemDietaryRequirement → TxSt →
    Except DBError (List OrderItemDietaryRequirement × TxSt)
  | [], tx => .ok ([], tx)
  | d :: ds, tx =>
    match insertDietary gen faults itemId d tx with
    | .error e => .error e
    | .ok (d', tx1) =>
      match insertDietaries gen faults itemId ds tx1 with
      | .error e => .error e
      | .ok (ds', tx2) => .ok (d' :: ds', tx2)

/-- Insert one allergy row. -/
def insertAllergy (gen : Nat → String) (faults : Nat → Bool) (itemId : String)
    (a : OrderItemAllergy) (tx : TxSt) : Except DBError (OrderItemAllergy × TxSt) :=
  let p := hookId gen a.ID tx
  let a' : OrderItemAllergy :=
    { ID := p.1, OrderItemID := itemId, Allergy := a.Allergy }
  if faults p.2.stepIdx then .error .storageFault
  else .ok (a', { p.2 with
    db := { p.2.db with allergies := p.2.db.allergies ++ [a'] },
    stepIdx := p.2.stepIdx + 1 })

def insertAllergies (gen : Nat → String) (faults : Nat → Bool) (itemId : String) :
    List OrderItemAllergy → TxSt → Except DBError (List OrderItemAllergy × TxSt)
  | [], tx => .ok ([], tx)
  | a :: as_, tx =>
    match insertAllergy gen faults itemId a tx with
    | .error e => .error e
    | .ok (a', tx1) =>
      match insertAllergies gen faults itemId as_ tx1 with
      | .error e => .error e
      | .ok (as', tx2) => .ok (a' :: as', tx2)

/-- Insert one order item: hook its identifier, insert its header row with
the owning order's key, then its three junction collections. -/
def insertItem (gen : Nat → String) (faults : Nat → Bool) (orderId : String)
    (it : OrderItem) (tx : TxSt) : Except DBError (OrderItem × TxSt) :=
  let p := hookId gen it.ID tx
  let row : OrderItemRecord :=
    { ID := p.1, OrderID := orderId, Size := it.Size, Pizza := it.Pizza,
      Instructions := it.Instructions }
  if faults p.2.stepIdx then .error .storageFault
  else
    let tx2 : TxSt := { p.2 with
      db := { p.2.db with orderItems := p.2.db.orderItems ++ [row] },
      stepIdx := p.2.stepIdx + 1 }
    match insertToppings gen faults p.1 it.Toppings tx2 with
    | .error e => .error e
    | .ok (ts', tx3) =>
      match insertDietaries gen faults p.1 it.DietaryRequirement tx3 with
      | .error e => .error e
      | .ok (ds', tx4) =>
        match insertAllergies gen faults p.1 it.Allergies tx4 with
        | .error e => .error e
        | .ok (as', tx5) =>
          .ok ({ it with ID := p.1, OrderID := orderId, Toppings := ts',
                         DietaryRequirement := ds', Allergies := as' }, tx5)

def insertItems (gen : Nat → String) (faults : Nat → Bool) (orderId : String) :
    List OrderItem → TxSt → Except DBError (List OrderItem × TxSt)
  | [], tx => .ok ([], tx)
  | it :: its, tx =>
    match insertItem gen faults orderId it tx with
    | .error e => .error e
    | .ok (it', tx1) =>
      match insertItems gen faults orderId its tx1 with
      | .error e => .error e
      | .ok (its', tx2) => .ok (it' :: its', tx2)

/-- The raw multi-table write performed inside the transaction: order
header first (hook, timestamp, row), then every item with its junction
collections.  On a fault it aborts with the store only partially written —
the transaction wrapper below discards that partial state. -/
def insertGraph (gen : Nat → String) (faults : Nat → Bool) (now : Nat)
    (o : Order) (tx : TxSt) : Except DBError (Order × TxSt) :=
  let p := hookId gen o.ID tx
  let row : OrderRecord :=
    { ID := p.1, Status := o.Status, CustomerName := o.CustomerName,
      Phone := o.Phone, Address := o.Address, CreatedAt := now }
  if faults p.2.stepIdx then .error .storageFault
  else
    let tx2 : TxSt := { p.2 with
      db := { p.2.db with orders := p.2.db.orders ++ [row] },
      stepIdx := p.2.stepIdx + 1 }
    match insertItems gen faults p.1 o.Items tx2 with
    | .error e => .error e
    | .ok (its', tx3) => .ok ({ o with ID := p.1, Items := its', CreatedAt := now }, tx3)

/-- `OrderModel.CreateOrder`: `o.DB.Create(order)` persists the whole
association graph in one transaction, so a fault anywhere rolls the store
back to its pre-call state; on success the store gains exactly the new
rows and the caller receives the order with identifiers filled in. -/
def createOrder (db : DB) (gen : Nat → String) (faults : Nat → Bool)
    (now : Nat) (o : Order) : DB × Except DBError Order :=
  match insertGraph gen faults now o { db := db, genIdx := 0, stepIdx := 0 } with
  | .ok (o', tx) => (tx.db, .ok o')
  | .error e => (db, .error e)

/-- `OrderModel.GetOrder`: `First(&order, "id = ?", id)` plus the three
`Preload` batches.  Each preload is one query filtered on the parent keys,
returning rows in table (= insertion) order; a missing order is
`gorm.ErrRecordNotFound`. -/
def getOrder (db : DB) (id : String) : Except DBError Order :=
  match db.orders.find? (fun r => r.ID == id) with
  | none => .error .notFound
  | some r =>
    .ok { ID := r.ID, Status := r.Status, CustomerName := r.CustomerName,
          Phone := r.Phone, Address := r.Address, CreatedAt := r.CreatedAt,
          Items := (db.orderItems.filter (fun it => it.OrderID == r.ID)).map (fun it =>
            { ID := it.ID, OrderID := it.OrderID, Size := it.Size, Pizza := it.Pizza,
              Instructions := it.Instructions,
              Toppings := db.toppings.filter (fun t => t.OrderItemID == it.ID),
              DietaryRequirement := db.dietaries.filter (fun d => d.OrderItemID == it.ID),
              Allergies := db.allergies.filter (fun a => a.OrderItemID == it.ID) }) }

/-! ## Derived notions used by the claims -/

/-- Does some order row carry this identifier? -/
def ordersHasId (db : DB) (id : String) : Bool :=
  db.orders.any (fun r => r.ID == id)

/-- Is this identifier visible anywhere in the store, as a primary key of
an order or item or as a foreign key of an item or junction row? -/
def usedId (db : DB) (id : String) : Bool :=
  db.orders.any (fun r => r.ID == id) ||
  db.orderItems.any (fun r => r.ID == id) ||
  db.orderItems.any (fun r => r.OrderID == id) ||
  db.toppings.any (fun r => r.OrderItemID == id) ||
  db.dietaries.any (fun r => r.OrderItemID == id) ||
  db.allergies.any (fun r => r.OrderItemID == id)

/-- Every identifier field of the graph is empty (the shape in which
`HandleNewOrder` hands orders to the repository). -/
def emptyIds (o : Order) : Bool :=
  o.ID == "" && o.Items.all (fun it =>
    it.ID == "" && it.Toppings.all (fun t => t.ID == "") &&
    it.DietaryRequirement.all (fun d => d.ID == "") &&
    it.Allergies.all (fun a => a.ID == ""))

/-- Number of identifiers the supply yields for this graph when every
identifier field is empty: one per order, item and junction row. -/
def idCount (o : Order) : Nat :=
  1 + (o.Items.map (fun it =>
    1 + it.Toppings.length + it.DietaryRequirement.length + it.Allergies.length)).sum

/-- `gen g, gen (g+1), ..., gen (g+n-1)`. -/
def genSeq (gen : Nat → String) (g : Nat) : Nat → List String
  | 0 => []
  | n + 1 => gen g :: genSeq gen (g + 1) n

/-- The identifiers the supply yields during one `createOrder` call on a
graph with empty identifier fields. -/
def consumedIds (o : Order) (gen : Nat → String) : List String :=
  genSeq gen 0 (idCount o)

/-- All identifiers of a graph, in generation order: the order's, then per
item the item's followed by its topping, dietary and allergy row ids. -/
def collectIds (o : Order) : List String :=
  o.ID :: (o.Items.map (fun it =>
    it.ID :: (it.Toppings.map (fun t => t.ID) ++
      it.DietaryRequirement.map (fun d => d.ID) ++
      it.Allergies.map (fun a => a.ID) : List String))).flatten

/-- Blank every generated field (identifiers, foreign keys, timestamp):
two graphs are "equal except generated identifiers and timestamp" iff
their erasures are equal. -/
def eraseIds (o : Order) : Order :=
  { o with ID := "", CreatedAt := 0,
           Items := o.Items.map (fun it =>
             { it with ID := "", OrderID := "",
                       Toppings := it.Toppings.map (fun t =>
                         { t with ID := "", OrderItemID := "" }),
                       DietaryRequirement := it.DietaryRequirement.map (fun d =>
                         { d with ID := "", OrderItemID := "" }),
                       Allergies := it.Allergies.map (fun a =>
                         { a with ID := "", OrderItemID := "" }) }) }

/-! ## Closed forms of the create path on all-empty-identifier graphs

When every identifier field of the input graph is empty (the only shape
`HandleNewOrder` produces) and no step faults, the insertion functions act
as the following pure assignment functions: each row receives the next
identifier of the supply, junction rows receive their owner's key, and the
store gains exactly the new rows, appended in traversal order. -/

def assignToppings (gen : Nat → String) (g : Nat) (itemId : String) :
    List OrderItemTopping → List OrderItemTopping
  | [] => []
  | t :: ts =>
    { ID := gen g, OrderItemID := itemId, Topping := t.Topping, IsExtra := t.IsExtra } ::
      assignToppings gen (g + 1) itemId ts

def assignDietaries (gen : Nat → String) (g : Nat) (itemId : String) :
    List OrderItemDietaryRequirement → List OrderItemDietaryRequirement
  | [] => []
  | d :: ds =>
    { ID := gen g, OrderItemID := itemId, DietaryRequirement := d.DietaryRequirement } ::
      assignDietaries gen (g + 1) itemId ds

def assignAllergies (gen : Nat → String) (g : Nat) (itemId : String) :
    List OrderItemAllergy → List OrderItemAllergy
  | [] => []
  | a :: as_ =>
    { ID := gen g, OrderItemID := itemId, Allergy := a.Allergy } ::
      assignAllergies gen (g + 1) itemId as_

/-- Identifiers one item consumes: its own plus one per junction row. -/
def itemWeight (it : OrderItem) : Nat :=
  1 + it.Toppings.length + it.DietaryRequirement.length + it.Allergies.length

def itemsWeight (its : List OrderItem) : Nat := (its.map itemWeight).sum

def assignItem (gen : Nat → String) (g : Nat) (orderId : String) (it : OrderItem) :
    OrderItem :=
  { it with ID := gen g, OrderID := orderId,
            Toppings := assignToppings gen (g + 1) (gen g) it.Toppings,
            DietaryRequirement :=
              assignDietaries gen (g + 1 + it.Toppings.length) (gen g) it.DietaryRequirement,
            Allergies :=
              assignAllergies gen (g + 1 + it.Toppings.length + it.DietaryRequirement.length)
                (gen g) it.Allergies }

def assignItems (gen : Nat → String) (g : Nat) (orderId : String) :
    List OrderItem → List OrderItem
  | [] => []
  | it :: its => assignItem gen g orderId it :: assignItems gen (g + itemWeight it) orderId its

def assignOrder (gen : Nat → String) (now : Nat) (o : Order) : Order :=
  { o with ID := gen 0, CreatedAt := now, Items := assignItems gen 1 (gen 0) o.Items }

/-- Flat row written to `order_items` for an (already assigned) item. -/
def recordOfItem (it : OrderItem) : OrderItemRecord :=
  { ID := it.ID, OrderID := it.OrderID, Size := it.Size, Pizza := it.Pizza,
    Instructions := it.Instructions }

/-- The store after a successful `createOrder` that returned `o'`. -/
def dbAfterCreate (db : DB) (o' : Order) : DB :=
  { orders := db.orders ++
      [{ ID := o'.ID, Status := o'.Status, CustomerName := o'.CustomerName,
         Phone := o'.Phone, Address := o'.Address, CreatedAt := o'.CreatedAt }],
    orderItems := db.orderItems ++ o'.Items.map recordOfItem,
    toppings := db.toppings ++ (o'.Items.map (fun it => it.Toppings)).flatten,
    dietaries := db.dietaries ++ (o'.Items.map (fun it => it.DietaryRequirement)).flatten,
    allergies := db.allergies ++ (o'.Items.map (fun it => it.Allergies)).flatten }

/-- Shape invariants `createOrder` establishes on the returned graph:
every item references the order, every junction row references its item,
and item identifiers are pairwise distinct. -/
def graphWF (o' : Order) : Prop :=
  (∀ it ∈ o'.Items, it.OrderID = o'.ID ∧
     (∀ t ∈ it.Toppings, t.OrderItemID = it.ID) ∧
     (∀ d ∈ it.DietaryRequirement, d.OrderItemID = it.ID) ∧
     (∀ a ∈ it.Allergies, a.OrderItemID = it.ID)) ∧
  (o'.Items.map (fun it => it.ID)).Nodup

/-- The new graph's keys collide with nothing already in the store. -/
def freshForDB (db : DB) (o' : Order) : Prop :=
  (∀ r ∈ db.orders, r.ID ≠ o'.ID) ∧
  (∀ r ∈ db.orderItems, r.OrderID ≠ o'.ID) ∧
  (∀ it ∈ o'.Items,
    (∀ r ∈ db.toppings, r.OrderItemID ≠ it.ID) ∧
    (∀ r ∈ db.dietaries, r.OrderItemID ≠ it.ID) ∧
    (∀ r ∈ db.allergies, r.OrderItemID ≠ it.ID))

/-- All identifiers of one item, in generation order. -/
def itemIds (it : OrderItem) : List String :=
  it.ID :: (it.Toppings.map (fun t => t.ID) ++ it.DietaryRequirement.map (fun d => d.ID) ++
    it.Allergies.map (fun a => a.ID))

/-- The per-item part of `eraseIds`. -/
def eraseItem (it : OrderItem) : OrderItem :=
  { it with ID := "", OrderID := "",
            Toppings := it.Toppings.map (fun t => { t with ID := "", OrderItemID := "" }),
            DietaryRequirement := it.DietaryRequirement.map (fun d =>
              { d with ID := "", OrderItemID := "" }),
            Allergies := it.Allergies.map (fun a => { a with ID := "", OrderItemID := "" }) }

/-! ## Concrete inputs used to instantiate the claims -/

/-- A deterministic stand-in for the `shortid` supply: distinct, non-empty
identifiers for distinct indices. -/
def genW : Nat → String := fun n => String.mk ('g' :: List.replicate n 'x')

/-- A small submitted form: one Margherita with no topping selection. -/
def demoForm : OrderRequest :=
  { Name := "Ada", Phone := "123456789", Address := "1 Pizza Way",
    Sizes := ["Large"], PizzaTypes := ["Margherita"], Crusts := ["Thin"],
    Instructions := ["extra crispy"], Toppings := [],
    DietaryRequirements := ["Vegan"], Allergies := [] }

def demoOrder : Order := buildOrder demoForm

/-- The Margherita form with the defaults selected explicitly plus one
extra Pepperoni. -/
def margheritaPlusForm : OrderRequest :=
  { demoForm with
      Toppings := ["0:Tomato Sauce", "0:Mozzarella", "0:Tomatoes", "0:Basil", "0:Pepperoni"] }

/-- A two-item form for the dietary/allergy replication scenario. -/
def twoItemForm : OrderRequest :=
  { Name := "Bea", Phone := "987654321", Address := "2 Oven St",
    Sizes := ["Large", "Small"], PizzaTypes := ["Margherita", "Hawaiian"],
    Crusts := [], Instructions := [], Toppings := [],
    DietaryRequirements := ["Vegan", "Halal"], Allergies := ["Nuts"] }

/-- One-item form parameterised by the submitted crust choice. -/
def crustedForm (c : String) : OrderRequest :=
  { Name := "Cal", Phone := "555123456", Address := "3 Dough Rd",
    Sizes := ["Medium"], PizzaTypes := ["Pepperoni"], Crusts := [c],
    Instructions := ["well done"], Toppings := [],
    DietaryRequirements := [], Allergies := [] }

/-- An order whose caller supplied a non-empty identifier. -/
def suppliedIdOrder : Order :=
  { ID := "attacker", Status := "Order Placed", CustomerName := "Mallory",
    Phone := "0400000000", Address := "1 Evil Lane", Items := [], CreatedAt := 0 }

theorem insertToppings_spec (gen : Nat → String) (faults : Nat → Bool) (itemId : String)
    (hf : ∀ k, faults k = false) :
    ∀ (ts : List OrderItemTopping) (tx : TxSt), (∀ t ∈ ts, t.ID = "") →
      insertToppings gen faults itemId ts tx =
        .ok (assignToppings gen tx.genIdx itemId ts,
          { db := { tx.db with
              toppings := tx.db.toppings ++ assignToppings gen tx.genIdx itemId ts },
            genIdx := tx.genIdx + ts.length, stepIdx := tx.stepIdx + ts.length })
  | [], tx, _ => by
    simp [insertToppings, assignToppings]
  | t :: ts, tx, h => by
    obtain ⟨⟨dbo, dbi, dbt, dbd, dba⟩, g, s⟩ := tx
    have ht : t.ID = "" := h t (List.mem_cons_self t ts)
    have ih := insertToppings_spec gen faults itemId hf ts
      { db := { orders := dbo, orderItems := dbi,
                toppings := dbt ++
                  [{ ID := gen g, OrderItemID := itemId, Topping := t.Topping,
                     IsExtra := t.IsExtra }],
                dietaries := dbd, allergies := dba },
        genIdx := g + 1, stepIdx := s + 1 }
      (fun x hx => h x (List.mem_cons_of_mem t hx))
    simp only [insertToppings, insertTopping, hookId, ht, hf, if_true, Bool.false_eq_true,
      if_false, reduceIte] at ih ⊢
    simp [ih, assignToppings, List.append_assoc]
    omega

theorem insertDietaries_spec (gen : Nat → String) (faults : Nat → Bool) (itemId : String)
    (hf : ∀ k, faults k = false) :
    ∀ (ds : List OrderItemDietaryRequirement) (tx : TxSt), (∀ d ∈ ds, d.ID = "") →
      insertDietaries gen faults itemId ds tx =
        .ok (assignDietaries gen tx.genIdx itemId ds,
          { db := { tx.db with
              dietaries := tx.db.dietaries ++ assignDietaries gen tx.genIdx itemId ds },
            genIdx := tx.genIdx + ds.length, stepIdx := tx.stepIdx + ds.length })
  | [], tx, _ => by
    simp [insertDietaries, assignDietaries]
  | d :: ds, tx, h => by
    obtain ⟨⟨dbo, dbi, dbt, dbd, dba⟩, g, s⟩ := tx
    have hd : d.ID = "" := h d (List.mem_cons_self d ds)
    have ih := insertDietaries_spec gen faults itemId hf ds
      { db := { orders := dbo, orderItems := dbi, toppings := dbt,
                dietaries := dbd ++
                  [{ ID := gen g, OrderItemID := itemId,
                     DietaryRequirement := d.DietaryRequirement }],
                allergies := dba },
        genIdx := g + 1, stepIdx := s + 1 }
      (fun x hx => h x (List.mem_cons_of_mem d hx))
    simp only [insertDietaries, insertDietary, hookId, hd, hf, if_true, Bool.false_eq_true,
      if_false, reduceIte] at ih ⊢
    simp [ih, assignDietaries, List.append_assoc]
    omega

theorem insertAllergies_spec (gen : Nat → String) (faults : Nat → Bool) (itemId : String)
    (hf : ∀ k, faults k = false) :
    ∀ (as_ : List OrderItemAllergy) (tx : TxSt), (∀ a ∈ as_, a.ID = "") →
      insertAllergies gen faults itemId as_ tx =
        .ok (assignAllergies gen tx.genIdx itemId as_,
          { db := { tx.db with
              allergies := tx.db.allergies ++ assignAllergies gen tx.genIdx itemId as_ },
            genIdx := tx.genIdx + as_.length, stepIdx := tx.stepIdx + as_.length })
  | [], tx, _ => by
    simp [insertAllergies, assignAllergies]
  | a :: as_, tx, h => by
    obtain ⟨⟨dbo, dbi, dbt, dbd, dba⟩, g, s⟩ := tx
    have ha : a.ID = "" := h a (List.mem_cons_self a as_)
    have ih := insertAllergies_spec gen faults itemId hf as_
      { db := { orders := dbo, orderItems := dbi, toppings := dbt, dietaries := dbd,
                allergies := dba ++
                  [{ ID := gen g, OrderItemID := itemId, Allergy := a.Allergy }] },
        genIdx := g + 1, stepIdx := s + 1 }
      (fun x hx => h x (List.mem_cons_of_mem a hx))
    simp only [insertAllergies, insertAllergy, hookId, ha, hf, if_true, Bool.false_eq_true,
      if_false, reduceIte] at ih ⊢
    simp [ih, assignAllergies, List.append_assoc]
    omega

theorem insertItem_spec (gen : Nat → String) (faults : Nat → Bool) (orderId : String)
    (hf : ∀ k, faults k = false) (it : OrderItem) (tx : TxSt)
    (hid : it.ID = "") (ht : ∀ t ∈ it.Toppings, t.ID = "")
    (hd : ∀ d ∈ it.DietaryRequirement, d.ID = "") (ha : ∀ a ∈ it.Allergies, a.ID = "") :
    insertItem gen faults orderId it tx =
      .ok (assignItem gen tx.genIdx orderId it,
        { db := { tx.db with
            orderItems := tx.db.orderItems ++
              [recordOfItem (assignItem gen tx.genIdx orderId it)],
            toppings := tx.db.toppings ++ (assignItem gen tx.genIdx orderId it).Toppings,
            dietaries := tx.db.dietaries ++
              (assignItem gen tx.genIdx orderId it).DietaryRequirement,
            allergies := tx.db.allergies ++ (assignItem gen tx.genIdx orderId it).Allergies },
          genIdx := tx.genIdx + itemWeight it, stepIdx := tx.stepIdx + itemWeight it }) := by
  obtain ⟨⟨dbo, dbi, dbt, dbd, dba⟩, g, s⟩ := tx
  simp only [insertItem, hookId, hid, hf, if_true, Bool.false_eq_true, if_false, reduceIte]
  rw [insertToppings_spec gen faults (gen g) hf it.Toppings _ ht]
  simp only []
  rw [insertDietaries_spec gen faults (gen g) hf it.DietaryRequirement _ hd]
  simp only []
  rw [insertAllergies_spec gen faults (gen g) hf it.Allergies _ ha]
  simp [assignItem, recordOfItem, itemWeight, List.append_assoc]
  omega

theorem insertItems_spec (gen : Nat → String) (faults : Nat → Bool) (orderId : String)
    (hf : ∀ k, faults k = false) :
    ∀ (its : List OrderItem) (tx : TxSt),
      (∀ it ∈ its, it.ID = "" ∧ (∀ t ∈ it.Toppings, t.ID = "") ∧
        (∀ d ∈ it.DietaryRequirement, d.ID = "") ∧ (∀ a ∈ it.Allergies, a.ID = "")) →
      insertItems gen faults orderId its tx =
        .ok (assignItems gen tx.genIdx orderId its,
          { db := { tx.db with
              orderItems := tx.db.orderItems ++
                (assignItems gen tx.genIdx orderId its).map recordOfItem,
              toppings := tx.db.toppings ++
                ((assignItems gen tx.genIdx orderId its).map (fun it => it.Toppings)).flatten,
              dietaries := tx.db.dietaries ++
                ((assignItems gen tx.genIdx orderId its).map
                  (fun it => it.DietaryRequirement)).flatten,
              allergies := tx.db.allergies ++
                ((assignItems gen tx.genIdx orderId its).map (fun it => it.Allergies)).flatten },
            genIdx := tx.genIdx + itemsWeight its, stepIdx := tx.stepIdx + itemsWeight its })
  | [], tx, _ => by
    simp [insertItems, assignItems, itemsWeight]
  | it :: its, tx, h => by
    obtain ⟨⟨dbo, dbi, dbt, dbd, dba⟩, g, s⟩ := tx
    obtain ⟨hid, ht, hd, ha⟩ := h it (List.mem_cons_self it its)
    have hstep := insertItem_spec gen faults orderId hf it
      ⟨⟨dbo, dbi, dbt, dbd, dba⟩, g, s⟩ hid ht hd ha
    have ih := insertItems_spec gen faults orderId hf its
      { db := { orders := dbo,
                orderItems := dbi ++ [recordOfItem (assignItem gen g orderId it)],
                toppings := dbt ++ (assignItem gen g orderId it).Toppings,
                dietaries := dbd ++ (assignItem gen g orderId it).DietaryRequirement,
                allergies := dba ++ (assignItem gen g orderId it).Allergies },
        genIdx := g + itemWeight it, stepIdx := s + itemWeight it }
      (fun x hx => h x (List.mem_cons_of_mem it hx))
    simp only [insertItems, hstep, ih, assignItems]
    simp [itemsWeight, List.append_assoc]
    omega

theorem createOrder_spec (db : DB) (gen : Nat → String) (faults : Nat → Bool)
    (now : Nat) (o : Order) (h0 : emptyIds o = true) (hf : ∀ k, faults k = false) :
    createOrder db gen faults now o =
      (dbAfterCreate db (assignOrder gen now o), .ok (assignOrder gen now o)) := by
  obtain ⟨dbo, dbi, dbt, dbd, dba⟩ := db
  simp only [emptyIds, Bool.and_eq_true, beq_iff_eq, List.all_eq_true] at h0
  obtain ⟨hid, hitems⟩ := h0
  have hitems' : ∀ it ∈ o.Items, it.ID = "" ∧ (∀ t ∈ it.Toppings, t.ID = "") ∧
      (∀ d ∈ it.DietaryRequirement, d.ID = "") ∧ (∀ a ∈ it.Allergies, a.ID = "") := by
    intro it hit
    obtain ⟨⟨h1, h2⟩, h3⟩ := hitems it hit
    obtain ⟨h1a, h1b⟩ := h1
    exact ⟨h1a, fun t htt => by simpa using h1b t htt,
      fun d hdd => by simpa using h2 d hdd, fun a haa => by simpa using h3 a haa⟩
  simp only [createOrder, insertGraph, hookId, hid, hf, if_true, Bool.false_eq_true, if_false,
    reduceIte]
  rw [insertItems_spec gen faults (gen 0) hf o.Items _ hitems']
  simp [assignOrder, dbAfterCreate, List.append_assoc]

/-! ## Hydration: reading back a freshly created graph -/

/-- Junction rows of other items never pass a key filter when item
identifiers are pairwise distinct; an item's own rows always do.  Stated
generically over the three junction-row types via a key projection. -/
theorem filter_flatten_by_key {α β : Type} (key : β → String) (rows : α → List β)
    (idf : α → String) :
    ∀ (items : List α), (items.map idf).Nodup →
      (∀ x ∈ items, ∀ r ∈ rows x, key r = idf x) →
      ∀ x ∈ items,
        ((items.map rows).flatten).filter (fun r => key r == idf x) = rows x
  | [], _, _, x, hx => absurd hx (List.not_mem_nil x)
  | y :: items, nd, hkey, x, hx => by
    simp only [List.map_cons, List.flatten_cons, List.filter_append]
    rcases List.mem_cons.mp hx with rfl | hx'
    · have h1 : (rows x).filter (fun r => key r == idf x) = rows x :=
        List.filter_eq_self.mpr (fun r hr => by
          simp [hkey x (List.mem_cons_self x items) r hr])
      have h2 : ((items.map rows).flatten).filter (fun r => key r == idf x) = [] := by
        refine List.filter_eq_nil_iff.mpr (fun r hr => ?_)
        obtain ⟨l, hl, hrl⟩ := List.mem_flatten.mp hr
        obtain ⟨z, hz, rfl⟩ := List.mem_map.mp hl
        have : key r = idf z := hkey z (List.mem_cons_of_mem x hz) r hrl
        have hne : idf z ≠ idf x := by
          intro he
          have := (List.nodup_cons.mp nd).1
          exact this (he ▸ List.mem_map_of_mem idf hz)
        simp [this, hne]
      rw [h1, h2, List.append_nil]
    · have h1 : (rows y).filter (fun r => key r == idf x) = [] := by
        refine List.filter_eq_nil_iff.mpr (fun r hr => ?_)
        have : key r = idf y := hkey y (List.mem_cons_self y items) r hr
        have hne : idf y ≠ idf x := by
          intro he
          have := (List.nodup_cons.mp nd).1
          exact this (he ▸ List.mem_map_of_mem idf hx')
        simp [this, hne]
      have h2 := filter_flatten_by_key key rows idf items (List.nodup_cons.mp nd).2
        (fun z hz => hkey z (List.mem_cons_of_mem y hz)) x hx'
      rw [h1, h2, List.nil_append]

/-- Reading the store right after a create returns exactly the graph the
create returned: the header from its row, the items in insertion order,
each with exactly its own junction rows in insertion order. -/
theorem getOrder_dbAfterCreate (db : DB) (o' : Order)
    (hwf : graphWF o') (hfresh : freshForDB db o') :
    getOrder (dbAfterCreate db o') o'.ID = .ok o' := by
  obtain ⟨hrefs, hnd⟩ := hwf
  obtain ⟨hfo, hfi, hfj⟩ := hfresh
  have hfind : (db.orders ++
      [({ ID := o'.ID, Status := o'.Status, CustomerName := o'.CustomerName,
          Phone := o'.Phone, Address := o'.Address,
          CreatedAt := o'.CreatedAt } : OrderRecord)]).find?
        (fun r => r.ID == o'.ID) =
      some { ID := o'.ID, Status := o'.Status, CustomerName := o'.CustomerName,
             Phone := o'.Phone, Address := o'.Address, CreatedAt := o'.CreatedAt } := by
    rw [List.find?_append]
    have : db.orders.find? (fun r => r.ID == o'.ID) = none :=
      List.find?_eq_none.mpr (fun r hr => by simp [hfo r hr])
    simp [this]
  have hitems : ((db.orderItems ++ o'.Items.map recordOfItem).filter
      (fun it => it.OrderID == o'.ID)) = o'.Items.map recordOfItem := by
    rw [List.filter_append]
    have h1 : db.orderItems.filter (fun it => it.OrderID == o'.ID) = [] :=
      List.filter_eq_nil_iff.mpr (fun r hr => by simp [hfi r hr])
    have h2 : (o'.Items.map recordOfItem).filter (fun it => it.OrderID == o'.ID) =
        o'.Items.map recordOfItem :=
      List.filter_eq_self.mpr (fun r hr => by
        obtain ⟨it, hit, rfl⟩ := List.mem_map.mp hr
        simp [recordOfItem, (hrefs it hit).1])
    rw [h1, h2, List.nil_append]
  simp only [getOrder, dbAfterCreate, hfind, hitems, List.map_map]
  have : ∀ it ∈ o'.Items,
      (fun rec : OrderItemRecord =>
        ({ ID := rec.ID, OrderID := rec.OrderID, Size := rec.Size, Pizza := rec.Pizza,
           Instructions := rec.Instructions,
           Toppings := (db.toppings ++
             (o'.Items.map (fun x => x.Toppings)).flatten).filter
               (fun t => t.OrderItemID == rec.ID),
           DietaryRequirement := (db.dietaries ++
             (o'.Items.map (fun x => x.DietaryRequirement)).flatten).filter
               (fun d => d.OrderItemID == rec.ID),
           Allergies := (db.allergies ++
             (o'.Items.map (fun x => x.Allergies)).flatten).filter
               (fun a => a.OrderItemID == rec.ID) } : OrderItem)) (recordOfItem it) = it := by
    intro it hit
    obtain ⟨hj1, hj2, hj3⟩ := hfj it hit
    have htop : (db.toppings ++
        (o'.Items.map (fun x => x.Toppings)).flatten).filter
          (fun t => t.OrderItemID == it.ID) = it.Toppings := by
      rw [List.filter_append]
      have h1 : db.toppings.filter (fun t => t.OrderItemID == it.ID) = [] :=
        List.filter_eq_nil_iff.mpr (fun r hr => by simp [hj1 r hr])
      have h2 := filter_flatten_by_key
        (fun t : OrderItemTopping => t.OrderItemID) (fun x : OrderItem => x.Toppings)
        (fun x : OrderItem => x.ID) o'.Items hnd
        (fun x hx => ((hrefs x hx).2).1) it hit
      rw [h1, h2, List.nil_append]
    have hdiet : (db.dietaries ++
        (o'.Items.map (fun x => x.DietaryRequirement)).flatten).filter
          (fun d => d.OrderItemID == it.ID) = it.DietaryRequirement := by
      rw [List.filter_append]
      have h1 : db.dietaries.filter (fun d => d.OrderItemID == it.ID) = [] :=
        List.filter_eq_nil_iff.mpr (fun r hr => by simp [hj2 r hr])
      have h2 := filter_flatten_by_key
        (fun d : OrderItemDietaryRequirement => d.OrderItemID)
        (fun x : OrderItem => x.DietaryRequirement)
        (fun x : OrderItem => x.ID) o'.Items hnd
        (fun x hx => ((hrefs x hx).2).2.1) it hit
      rw [h1, h2, List.nil_append]
    have hall : (db.allergies ++
        (o'.Items.map (fun x => x.Allergies)).flatten).filter
          (fun a => a.OrderItemID == it.ID) = it.Allergies := by
      rw [List.filter_append]
      have h1 : db.allergies.filter (fun a => a.OrderItemID == it.ID) = [] :=
        List.filter_eq_nil_iff.mpr (fun r hr => by simp [hj3 r hr])
      have h2 := filter_flatten_by_key
        (fun a : OrderItemAllergy => a.OrderItemID) (fun x : OrderItem => x.Allergies)
        (fun x : OrderItem => x.ID) o'.Items hnd
        (fun x hx => ((hrefs x hx).2).2.2) it hit
      rw [h1, h2, List.nil_append]
    simp [recordOfItem, htop, hdiet, hall]
  refine congrArg Except.ok ?_
  have hmap := List.map_congr_left this
  rw [List.map_id'] at hmap
  simp only [Function.comp_def]
  rw [hmap]

/-! ## Identifier bookkeeping for the assigned graph -/

theorem collectIds_eq_itemIds (o : Order) :
    collectIds o = o.ID :: (o.Items.map itemIds).flatten := rfl

theorem genSeq_append (gen : Nat → String) :
    ∀ (n : Nat) (g m : Nat), genSeq gen g (n + m) = genSeq gen g n ++ genSeq gen (g + n) m
  | 0, g, m => by simp [genSeq]
  | n + 1, g, m => by
    have : n + 1 + m = (n + m) + 1 := by omega
    rw [this]
    simp only [genSeq, genSeq_append gen n (g + 1) m, List.cons_append]
    have : g + 1 + n = g + (n + 1) := by omega
    rw [this]

theorem assignToppings_keys (gen : Nat → String) (iid : String) :
    ∀ (ts : List OrderItemTopping) (g : Nat),
      ∀ t ∈ assignToppings gen g iid ts, t.OrderItemID = iid
  | [], _, t, ht => absurd ht (List.not_mem_nil t)
  | x :: ts, g, t, ht => by
    rcases List.mem_cons.mp ht with rfl | h
    · rfl
    · exact assignToppings_keys gen iid ts (g + 1) t h

theorem assignDietaries_keys (gen : Nat → String) (iid : String) :
    ∀ (ds : List OrderItemDietaryRequirement) (g : Nat),
      ∀ d ∈ assignDietaries gen g iid ds, d.OrderItemID = iid
  | [], _, d, hd => absurd hd (List.not_mem_nil d)
  | x :: ds, g, d, hd => by
    rcases List.mem_cons.mp hd with rfl | h
    · rfl
    · exact assignDietaries_keys gen iid ds (g + 1) d h

theorem assignAllergies_keys (gen : Nat → String) (iid : String) :
    ∀ (as_ : List OrderItemAllergy) (g : Nat),
      ∀ a ∈ assignAllergies gen g iid as_, a.OrderItemID = iid
  | [], _, a, ha => absurd ha (List.not_mem_nil a)
  | x :: as_, g, a, ha => by
    rcases List.mem_cons.mp ha with rfl | h
    · rfl
    · exact assignAllergies_keys gen iid as_ (g + 1) a h

theorem assignToppings_ids (gen : Nat → String) (iid : String) :
    ∀ (ts : List OrderItemTopping) (g : Nat),
      (assignToppings gen g iid ts).map (fun t => t.ID) = genSeq gen g ts.length
  | [], g => by simp [assignToppings, genSeq]
  | t :: ts, g => by
    simp [assignToppings, genSeq, assignToppings_ids gen iid ts (g + 1)]

theorem assignDietaries_ids (gen : Nat → String) (iid : String) :
    ∀ (ds : List OrderItemDietaryRequirement) (g : Nat),
      (assignDietaries gen g iid ds).map (fun d => d.ID) = genSeq gen g ds.length
  | [], g => by simp [assignDietaries, genSeq]
  | d :: ds, g => by
    simp [assignDietaries, genSeq, assignDietaries_ids gen iid ds (g + 1)]

theorem assignAllergies_ids (gen : Nat → String) (iid : String) :
    ∀ (as_ : List OrderItemAllergy) (g : Nat),
      (assignAllergies gen g iid as_).map (fun a => a.ID) = genSeq gen g as_.length
  | [], g => by simp [assignAllergies, genSeq]
  | a :: as_, g => by
    simp [assignAllergies, genSeq, assignAllergies_ids gen iid as_ (g + 1)]

theorem itemWeight_succ (it : OrderItem) :
    itemWeight it =
      (it.Toppings.length + it.DietaryRequirement.length + it.Allergies.length) + 1 := by
  simp [itemWeight]; omega

theorem assignItem_itemIds (gen : Nat → String) (oid : String) (it : OrderItem) (g : Nat) :
    itemIds (assignItem gen g oid it) = genSeq gen g (itemWeight it) := by
  rw [itemWeight_succ]
  have h1 : it.Toppings.length + it.DietaryRequirement.length + it.Allergies.length + 1 =
      1 + (it.Toppings.length + (it.DietaryRequirement.length + it.Allergies.length)) := by
    omega
  rw [h1, genSeq_append, genSeq_append, genSeq_append]
  simp only [itemIds, assignItem, assignToppings_ids, assignDietaries_ids, assignAllergies_ids]
  simp [genSeq, List.append_assoc]

theorem itemsWeight_cons (it : OrderItem) (its : List OrderItem) :
    itemsWeight (it :: its) = itemWeight it + itemsWeight its := by
  simp [itemsWeight]

theorem assignItems_itemIds (gen : Nat → String) (oid : String) :
    ∀ (its : List OrderItem) (g : Nat),
      ((assignItems gen g oid its).map itemIds).flatten = genSeq gen g (itemsWeight its)
  | [], g => by simp [assignItems, itemsWeight, genSeq]
  | it :: its, g => by
    rw [itemsWeight_cons, genSeq_append]
    simp [assignItems, assignItem_itemIds, assignItems_itemIds gen oid its (g + itemWeight it)]

theorem consumedIds_eq (o : Order) (gen : Nat → String) :
    consumedIds o gen = gen 0 :: genSeq gen 1 (itemsWeight o.Items) := by
  have hw : idCount o = itemsWeight o.Items + 1 := by
    unfold idCount itemsWeight
    have : o.Items.map itemWeight = o.Items.map (fun it =>
        1 + it.Toppings.length + it.DietaryRequirement.length + it.Allergies.length) :=
      List.map_congr_left (fun it _ => by simp [itemWeight])
    rw [this]
    omega
  rw [consumedIds, hw]
  simp [genSeq]

theorem collectIds_assignOrder (gen : Nat → String) (now : Nat) (o : Order) :
    collectIds (assignOrder gen now o) = consumedIds o gen := by
  rw [consumedIds_eq, collectIds_eq_itemIds]
  simp [assignOrder, assignItems_itemIds]

theorem assignItems_ids_sublist (gen : Nat → String) (oid : String) :
    ∀ (its : List OrderItem) (g : Nat),
      ((assignItems gen g oid its).map (fun it => it.ID)).Sublist
        (genSeq gen g (itemsWeight its))
  | [], g => by simp [assignItems, itemsWeight, genSeq]
  | it :: its, g => by
    rw [itemsWeight_cons, genSeq_append, itemWeight_succ]
    have h1 : it.Toppings.length + it.DietaryRequirement.length + it.Allergies.length + 1 =
        1 + (it.Toppings.length + it.DietaryRequirement.length + it.Allergies.length) := by
      omega
    rw [h1, genSeq_append]
    simp only [assignItems, List.map_cons, assignItem, genSeq, List.cons_append]
    refine List.Sublist.cons₂ _ ?_
    refine List.Sublist.trans ?_ (List.sublist_append_right _ _)
    have h2 : g + (1 +
        (it.Toppings.length + it.DietaryRequirement.length + it.Allergies.length)) =
        g + itemWeight it := by
      rw [itemWeight_succ]; omega
    rw [h2]
    exact assignItems_ids_sublist gen oid its (g + itemWeight it)

/-! ## The assigned graph is well formed and fresh -/

theorem usedId_false_elim (db : DB) (id : String) (h : usedId db id = false) :
    (∀ r ∈ db.orders, r.ID ≠ id) ∧ (∀ r ∈ db.orderItems, r.ID ≠ id) ∧
    (∀ r ∈ db.orderItems, r.OrderID ≠ id) ∧ (∀ r ∈ db.toppings, r.OrderItemID ≠ id) ∧
    (∀ r ∈ db.dietaries, r.OrderItemID ≠ id) ∧ (∀ r ∈ db.allergies, r.OrderItemID ≠ id) := by
  simp only [usedId, Bool.or_eq_false_iff, List.any_eq_false, beq_iff_eq] at h
  exact ⟨h.1.1.1.1.1, h.1.1.1.1.2, h.1.1.1.2, h.1.1.2, h.1.2, h.2⟩

theorem assignItems_shape (gen : Nat → String) (oid : String) :
    ∀ (its : List OrderItem) (g : Nat), ∀ it ∈ assignItems gen g oid its,
      it.OrderID = oid ∧ (∀ t ∈ it.Toppings, t.OrderItemID = it.ID) ∧
      (∀ d ∈ it.DietaryRequirement, d.OrderItemID = it.ID) ∧
      (∀ a ∈ it.Allergies, a.OrderItemID = it.ID)
  | [], _, it, hit => absurd hit (List.not_mem_nil it)
  | x :: its, g, it, hit => by
    rcases List.mem_cons.mp hit with rfl | h
    · refine ⟨rfl, ?_, ?_, ?_⟩
      · exact fun t ht => assignToppings_keys gen (gen g) x.Toppings (g + 1) t ht
      · exact fun d hd =>
          assignDietaries_keys gen (gen g) x.DietaryRequirement
            (g + 1 + x.Toppings.length) d hd
      · exact fun a ha =>
          assignAllergies_keys gen (gen g) x.Allergies
            (g + 1 + x.Toppings.length + x.DietaryRequirement.length) a ha
    · exact assignItems_shape gen oid its (g + itemWeight x) it h

theorem graphWF_assignOrder (gen : Nat → String) (now : Nat) (o : Order)
    (h1 : (consumedIds o gen).Nodup) : graphWF (assignOrder gen now o) := by
  constructor
  · intro it hit
    exact assignItems_shape gen (gen 0) o.Items 1 it hit
  · rw [consumedIds_eq] at h1
    have hnd : (genSeq gen 1 (itemsWeight o.Items)).Nodup := (List.nodup_cons.mp h1).2
    exact List.Nodup.sublist (assignItems_ids_sublist gen (gen 0) o.Items 1) hnd

theorem freshForDB_assignOrder (db : DB) (gen : Nat → String) (now : Nat) (o : Order)
    (h2 : ∀ id ∈ consumedIds o gen, usedId db id = false) :
    freshForDB db (assignOrder gen now o) := by
  have hmem0 : gen 0 ∈ consumedIds o gen := by
    rw [consumedIds_eq]; exact List.mem_cons_self _ _
  have h0 := usedId_false_elim db (gen 0) (h2 (gen 0) hmem0)
  have hmemIt : ∀ it ∈ (assignOrder gen now o).Items, it.ID ∈ consumedIds o gen := by
    intro it hit
    rw [consumedIds_eq]
    refine List.mem_cons_of_mem _ ?_
    exact (assignItems_ids_sublist gen (gen 0) o.Items 1).subset
      (List.mem_map_of_mem (fun x => x.ID) hit)
  refine ⟨?_, ?_, ?_⟩
  · intro r hr
    exact fun he => (h0.1 r hr) he
  · intro r hr
    exact fun he => (h0.2.2.1 r hr) he
  · intro it hit
    have hu := usedId_false_elim db it.ID (h2 it.ID (hmemIt it hit))
    exact ⟨fun r hr => fun he => hu.2.2.2.1 r hr he,
           fun r hr => fun he => hu.2.2.2.2.1 r hr he,
           fun r hr => fun he => hu.2.2.2.2.2 r hr he⟩

/-! ## The assigned graph equals the input up to generated fields -/

theorem eraseIds_assignToppings (gen : Nat → String) (iid : String) :
    ∀ (ts : List OrderItemTopping) (g : Nat),
      (assignToppings gen g iid ts).map (fun t => ({ t with ID := "", OrderItemID := "" } :
          OrderItemTopping)) =
        ts.map (fun t => { t with ID := "", OrderItemID := "" })
  | [], _ => rfl
  | t :: ts, g => by
    simp [assignToppings, eraseIds_assignToppings gen iid ts (g + 1)]

theorem eraseIds_assignDietaries (gen : Nat → String) (iid : String) :
    ∀ (ds : List OrderItemDietaryRequirement) (g : Nat),
      (assignDietaries gen g iid ds).map (fun d => ({ d with ID := "", OrderItemID := "" } :
          OrderItemDietaryRequirement)) =
        ds.map (fun d => { d with ID := "", OrderItemID := "" })
  | [], _ => rfl
  | d :: ds, g => by
    simp [assignDietaries, eraseIds_assignDietaries gen iid ds (g + 1)]

theorem eraseIds_assignAllergies (gen : Nat → String) (iid : String) :
    ∀ (as_ : List OrderItemAllergy) (g : Nat),
      (assignAllergies gen g iid as_).map (fun a => ({ a with ID := "", OrderItemID := "" } :
          OrderItemAllergy)) =
        as_.map (fun a => { a with ID := "", OrderItemID := "" })
  | [], _ => rfl
  | a :: as_, g => by
    simp [assignAllergies, eraseIds_assignAllergies gen iid as_ (g + 1)]

theorem eraseIds_eq_eraseItem (o : Order) :
    eraseIds o = { o with ID := "", CreatedAt := 0, Items := o.Items.map eraseItem } := rfl

theorem eraseItem_assignItems (gen : Nat → String) (oid : String) :
    ∀ (its : List OrderItem) (g : Nat),
      (assignItems gen g oid its).map eraseItem = its.map eraseItem
  | [], _ => rfl
  | x :: its, g => by
    simp only [assignItems, List.map_cons, eraseItem_assignItems gen oid its (g + itemWeight x)]
    simp [assignItem, eraseItem, eraseIds_assignToppings, eraseIds_assignDietaries,
      eraseIds_assignAllergies]

theorem eraseIds_assignOrder (gen : Nat → String) (now : Nat) (o : Order) :
    eraseIds (assignOrder gen now o) = eraseIds o := by
  rw [eraseIds_eq_eraseItem, eraseIds_eq_eraseItem]
  simp [assignOrder, eraseItem_assignItems]

/-! ## Shared read-path helper -/

theorem getOrder_eq_notFound (db : DB) (id : String) (h : ordersHasId db id = false) :
    getOrder db id = .error .notFound := by
  have hfind : db.orders.find? (fun r => r.ID == id) = none := by
    rw [List.find?_eq_none]
    intro r hr
    simp only [ordersHasId, List.any_eq_false] at h
    simpa using h r hr
  simp [getOrder, hfind]

/-! ## The claims -/

/-- Claim C1: CreateOrder is atomic.  The repository call runs the whole graph
write in one transaction, so whenever it returns an error the store is
exactly the pre-call store, and a subsequent GetOrder for any identifier
that is not an order identifier of that pre-call store (in particular any
identifier that might have been assigned during the failed call, which was
never committed) signals not-found. -/
theorem createOrder_failure_leaves_store_unchanged (db : DB) (gen : Nat → String)
    (faults : Nat → Bool) (now : Nat) (o : Order) (e : DBError) (id : String)
    (hfail : (createOrder db gen faults now o).2 = .error e)
    (hid : ordersHasId db id = false) :
    (createOrder db gen faults now o).1 = db ∧
    getOrder (createOrder db gen faults now o).1 id = .error .notFound := by
  have hdb : (createOrder db gen faults now o).1 = db := by
    unfold createOrder at hfail ⊢
    cases h : insertGraph gen faults now o { db := db, genIdx := 0, stepIdx := 0 } with
    | ok p => rw [h] at hfail; simp at hfail
    | error e2 => rfl
  refine ⟨hdb, ?_⟩
  rw [hdb]
  exact getOrder_eq_notFound db id hid

theorem createOrder_failure_leaves_store_unchanged_witness :
    (createOrder emptyDB genW (fun _ => true) 0 demoOrder).1 = emptyDB ∧
    getOrder (createOrder emptyDB genW (fun _ => true) 0 demoOrder).1 "missing" =
      .error .notFound :=
  createOrder_failure_leaves_store_unchanged emptyDB genW (fun _ => true) 0 demoOrder
    .storageFault "missing" rfl rfl

/-- Claim C2: round-trip fidelity.  For a graph with empty identifier fields (as
built by the submission handler), a fault-free create on a store using
none of the consumed identifiers succeeds, and GetOrder on the generated
identifier returns exactly the graph the create returned — equal to the
input in every field except the generated identifiers and the creation
timestamp (`eraseIds` blanks exactly those), with item and junction-row
order preserved. -/
theorem createOrder_roundtrip_fidelity (db : DB) (gen : Nat → String)
    (faults : Nat → Bool) (now : Nat) (o : Order)
    (h0 : emptyIds o = true) (hf : ∀ k, faults k = false)
    (h1 : (consumedIds o gen).Nodup)
    (h2 : ∀ id ∈ consumedIds o gen, usedId db id = false) :
    ∃ o', (createOrder db gen faults now o).2 = .ok o' ∧
      getOrder (createOrder db gen faults now o).1 o'.ID = .ok o' ∧
      eraseIds o' = eraseIds o := by
  refine ⟨assignOrder gen now o, ?_, ?_, eraseIds_assignOrder gen now o⟩
  · rw [createOrder_spec db gen faults now o h0 hf]
  · rw [createOrder_spec db gen faults now o h0 hf]
    exact getOrder_dbAfterCreate db (assignOrder gen now o)
      (graphWF_assignOrder gen now o h1) (freshForDB_assignOrder db gen now o h2)

theorem createOrder_roundtrip_fidelity_witness :
    ∃ o', (createOrder emptyDB genW (fun _ => false) 7 demoOrder).2 = .ok o' ∧
      getOrder (createOrder emptyDB genW (fun _ => false) 7 demoOrder).1 o'.ID = .ok o' ∧
      eraseIds o' = eraseIds demoOrder :=
  createOrder_roundtrip_fidelity emptyDB genW (fun _ => false) 7 demoOrder
    (by decide) (fun _ => rfl) (by decide) (by decide)

/-- Claim C3: default substitution.  An item whose parsed topping selection is
empty and whose pizza type is a key of the canonical default-toppings map
receives exactly that type's default toppings as its junction rows, every
row marked non-extra. -/
theorem default_topping_substitution (form : OrderRequest) (i : Nat) (p : String)
    (ds : List String) (_hi : i < form.Sizes.length)
    (hp : form.PizzaTypes[i]? = some p)
    (hd : PizzaDefaultToppings.lookup p = some ds)
    (hsel : toppingsMap form.Toppings (Int.ofNat i) = []) :
    (buildItem form i).Toppings = ds.map (fun topping =>
      { ID := "", OrderItemID := "", Topping := topping, IsExtra := false }) := by
  have hgetD : form.PizzaTypes.getD i "" = p := by simp [List.getD, hp]
  have hds : defaultToppingsFor p = ds := by simp [defaultToppingsFor, hd]
  simp only [buildItem, hgetD, hsel, hds, List.length_nil, if_pos rfl, reduceIte]
  refine List.map_congr_left ?_
  intro t ht
  have hany : ds.any (fun d => d == t) = true := List.any_eq_true.mpr ⟨t, ht, by simp⟩
  simp [hany]

theorem default_topping_substitution_witness :
    (buildItem demoForm 0).Toppings =
      (["Tomato Sauce", "Mozzarella", "Tomatoes", "Basil"].map (fun topping =>
        ({ ID := "", OrderItemID := "", Topping := topping, IsExtra := false } :
          OrderItemTopping))) :=
  default_topping_substitution demoForm 0 "Margherita"
    ["Tomato Sauce", "Mozzarella", "Tomatoes", "Basil"]
    (by decide) (by decide) (by decide) (by decide)

/-- Claim C4: extra classification.  An item with a non-empty parsed topping
selection gets one junction row per selected topping, in selection order,
marked extra exactly when the topping is not among the item's pizza-type
default toppings. -/
theorem extra_topping_classification (form : OrderRequest) (i : Nat) (p : String)
    (sel : List String) (_hi : i < form.Sizes.length)
    (hp : form.PizzaTypes[i]? = some p)
    (hsel : toppingsMap form.Toppings (Int.ofNat i) = sel)
    (hne : sel ≠ []) :
    (buildItem form i).Toppings = sel.map (fun topping =>
      { ID := "", OrderItemID := "", Topping := topping,
        IsExtra := decide (topping ∉ defaultToppingsFor p) }) := by
  have hgetD : form.PizzaTypes.getD i "" = p := by simp [List.getD, hp]
  have hlen : ¬ (sel.length = 0) := by simpa [List.length_eq_zero] using hne
  simp only [buildItem, hgetD, hsel, if_neg hlen]
  refine List.map_congr_left ?_
  intro t ht
  have hbool : ((defaultToppingsFor p).any (fun d => d == t)) =
      decide (t ∈ defaultToppingsFor p) := by
    by_cases hmem : t ∈ defaultToppingsFor p
    · simp [hmem]
    · simp [hmem]
      intro x hx he
      exact hmem (he ▸ hx)
  simp [hbool, decide_not]

theorem extra_topping_classification_witness :
    (buildItem margheritaPlusForm 0).Toppings =
      (["Tomato Sauce", "Mozzarella", "Tomatoes", "Basil", "Pepperoni"].map (fun topping =>
        ({ ID := "", OrderItemID := "", Topping := topping,
           IsExtra := decide (topping ∉ defaultToppingsFor "Margherita") } :
          OrderItemTopping))) :=
  extra_topping_classification margheritaPlusForm 0 "Margherita"
    ["Tomato Sauce", "Mozzarella", "Tomatoes", "Basil", "Pepperoni"]
    (by decide) (by decide) (by decide) (by decide)

/-- Claim C5: not-found signalling.  When no order row carries the requested
identifier, GetOrder returns the distinguished not-found error — a value
different from the storage-failure error — and never a zero-valued order
in its place. -/
theorem getOrder_missing_id_not_found (db : DB) (id : String)
    (h : ordersHasId db id = false) :
    getOrder db id = .error .notFound ∧
    DBError.notFound ≠ DBError.storageFault ∧
    ∀ o : Order, getOrder db id ≠ .ok o := by
  have hg := getOrder_eq_notFound db id h
  refine ⟨hg, by simp, ?_⟩
  intro o
  rw [hg]
  simp

theorem getOrder_missing_id_not_found_witness :
    getOrder emptyDB "ZYXWVUTSRQPONM" = .error .notFound ∧
    DBError.notFound ≠ DBError.storageFault ∧
    ∀ o : Order, getOrder emptyDB "ZYXWVUTSRQPONM" ≠ .ok o :=
  getOrder_missing_id_not_found emptyDB "ZYXWVUTSRQPONM" rfl

/-- Claim C6 counterexample: the claim that identifiers are freshly generated
regardless of what the input carried is false.  The `BeforeCreate` hooks
only generate an identifier when the supplied field is empty, so an order
submitted with identifier "attacker" is persisted — and returned — under
exactly that caller-supplied identifier. -/
theorem createOrder_keeps_caller_supplied_id :
    (createOrder emptyDB genW (fun _ => false) 3 suppliedIdOrder).2 =
      .ok { suppliedIdOrder with CreatedAt := 3 } ∧
    ordersHasId (createOrder emptyDB genW (fun _ => false) 3 suppliedIdOrder).1
      "attacker" = true :=
  ⟨rfl, rfl⟩

/-- Claim C6 as amended: identifiers are generated locally at creation for every
row whose identifier field is empty — the shape the submission path always
produces.  On such input every persisted identifier (order, items,
junction rows, in traversal order) is exactly the corresponding output of
the local supply, so none of them comes from the caller. -/
theorem createOrder_generates_all_ids_when_empty (db : DB) (gen : Nat → String)
    (faults : Nat → Bool) (now : Nat) (o : Order)
    (h0 : emptyIds o = true) (hf : ∀ k, faults k = false) :
    ∃ o', (createOrder db gen faults now o).2 = .ok o' ∧
      collectIds o' = consumedIds o gen ∧ o'.ID = gen 0 := by
  refine ⟨assignOrder gen now o, ?_, collectIds_assignOrder gen now o, rfl⟩
  rw [createOrder_spec db gen faults now o h0 hf]

theorem createOrder_generates_all_ids_when_empty_witness :
    ∃ o', (createOrder emptyDB genW (fun _ => false) 11 demoOrder).2 = .ok o' ∧
      collectIds o' = consumedIds demoOrder genW ∧ o'.ID = genW 0 :=
  createOrder_generates_all_ids_when_empty emptyDB genW (fun _ => false) 11 demoOrder
    (by decide) (fun _ => rfl)

/-- Claim C7 analysis: the crust chosen at submission is NOT stored.  `models.OrderItem`
(internal/models/order.go:106-115) declares no crust field, even though
`cmd/customer.go:94` assigns one, so two submissions that differ only in
the chosen crust build identical persisted order graphs: the crust choice
is unrecoverable on read-back.  This refutes the claim as a slip in the
code (the spec and the handler both intend a crust attribute). -/
theorem crust_choice_not_persisted :
    buildOrder (crustedForm "Thin") = buildOrder (crustedForm "Deep Dish") ∧
    crustedForm "Thin" ≠ crustedForm "Deep Dish" :=
  ⟨rfl, by decide⟩

/-- Claim C8: initial status.  Every order built by the submission handler has
status `Order Placed`, the first element of the fixed five-state
vocabulary `Order Placed, Preparing, Cooking, Quality Check, Ready`. -/
theorem new_order_initial_status (form : OrderRequest) :
    (buildOrder form).Status = OrderStatusPlaced ∧
    OrderStatusPlaced ∈ OrderStatuses ∧
    OrderStatuses = ["Order Placed", "Preparing", "Cooking", "Quality Check", "Ready"] ∧
    OrderStatuses.head? = some OrderStatusPlaced := by
  exact ⟨rfl, by decide, by decide, rfl⟩

/-- Claim C9: dietary/allergy replication.  Every item the handler builds — in
particular any two items of a multi-item order — carries identical
dietary-requirement and allergy junction collections, each equal to the
full order-level submitted list; the selections are not per-item. -/
theorem dietary_allergy_replicated_per_item (form : OrderRequest) (i j : Nat)
    (_hi : i < form.Sizes.length) (_hj : j < form.Sizes.length) :
    (buildItem form i).DietaryRequirement = (buildItem form j).DietaryRequirement ∧
    (buildItem form i).Allergies = (buildItem form j).Allergies ∧
    (buildItem form i).DietaryRequirement = form.DietaryRequirements.map (fun dietary =>
      { ID := "", OrderItemID := "", DietaryRequirement := dietary }) ∧
    (buildItem form i).Allergies = form.Allergies.map (fun allergy =>
      { ID := "", OrderItemID := "", Allergy := allergy }) ∧
    buildOrderItems form = (List.range form.Sizes.length).map (buildItem form) :=
  ⟨rfl, rfl, rfl, rfl, rfl⟩

theorem dietary_allergy_replicated_per_item_witness :
    (buildItem twoItemForm 0).DietaryRequirement =
      (buildItem twoItemForm 1).DietaryRequirement ∧
    (buildItem twoItemForm 0).Allergies = (buildItem twoItemForm 1).Allergies ∧
    (buildItem twoItemForm 0).DietaryRequirement =
      twoItemForm.DietaryRequirements.map (fun dietary =>
        ({ ID := "", OrderItemID := "", DietaryRequirement := dietary } :
          OrderItemDietaryRequirement)) ∧
    (buildItem twoItemForm 0).Allergies = twoItemForm.Allergies.map (fun allergy =>
      ({ ID := "", OrderItemID := "", Allergy := allergy } : OrderItemAllergy)) ∧
    buildOrderItems twoItemForm =
      (List.range twoItemForm.Sizes.length).map (buildItem twoItemForm) :=
  dietary_allergy_replicated_per_item twoItemForm 0 1 (by decide) (by decide)

/-- Claim C10: malformed topping entries are silently dropped.  Deleting every
entry the parser rejects (no colon, or a prefix `strconv.Atoi` cannot
parse) from the submitted topping list changes neither the parsed
per-pizza topping map nor any order the handler builds; parsing is total,
so no error is raised either. -/
theorem malformed_topping_entries_dropped (form : OrderRequest) :
    buildOrder { form with Toppings := form.Toppings.filter (fun e =>
      (parseToppingEntry e).isSome) } = buildOrder form ∧
    toppingsMap (form.Toppings.filter (fun e => (parseToppingEntry e).isSome)) =
      toppingsMap form.Toppings := by
  have key : ∀ (entries : List String) (m : Int → List String),
      (entries.filter (fun e => (parseToppingEntry e).isSome)).foldl
        (fun m t =>
          match parseToppingEntry t with
          | none => m
          | some (i, lbl) => fun j => if j = i then m j ++ [lbl] else m j) m =
      entries.foldl
        (fun m t =>
          match parseToppingEntry t with
          | none => m
          | some (i, lbl) => fun j => if j = i then m j ++ [lbl] else m j) m := by
    intro entries
    induction entries with
    | nil => intro m; rfl
    | cons e es ih =>
      intro m
      cases h : parseToppingEntry e with
      | none =>
        simp only [List.filter_cons, h, Option.isSome_none, Bool.false_eq_true, if_false,
          List.foldl_cons, ih]
      | some v =>
        simp only [List.filter_cons, h, Option.isSome_some, if_true, List.foldl_cons, ih]
  have hmap : toppingsMap (form.Toppings.filter (fun e =>
      (parseToppingEntry e).isSome)) = toppingsMap form.Toppings := by
    unfold toppingsMap
    exact key form.Toppings (fun _ => [])
  refine ⟨?_, hmap⟩
  have hitem : ∀ i, buildItem { form with Toppings := form.Toppings.filter (fun e =>
      (parseToppingEntry e).isSome) } i = buildItem form i := by
    intro i
    simp only [buildItem]
    simp [hmap]
  simp only [buildOrder, buildOrderItems]
  rw [List.map_congr_left (fun i _ => hitem i)]

end PizzaTracker
